import Mathlib

/-!
Verification of the job-crawler core (src/job_crawler.py) against its
natural-language specification.  The Python source is shallowly embedded:
pure string manipulation is translated to functions on `String`/`List Char`,
HTTP fetches and HTML parsing (external capabilities per the spec) are
modelled as explicit data (`Fetch`, `Page`, `Net`, `Pipeline`), and the
mutable per-company ledger (`processed_companies` list and
`failed_companies` dict) becomes a `CrawlerState` record threaded through
`process_company` and `run`.
-/

set_option maxHeartbeats 1000000

namespace JobCrawler

/-! ### Python string primitives (ASCII scope)

`containsCL needle hay` models Python's `needle in hay` substring test;
`pySplit` models `str.split()` (split on whitespace runs, dropping empties);
`pyStrip` models `str.strip()`; `collapseWs` models `re.sub(r'\s+', ' ', _)`.
-/

/-- Python `s.lower()` (ASCII scope). -/
def strToLower (s : String) : String := String.mk (s.data.map Char.toLower)

def prefixOfCL : List Char → List Char → Bool
  | [], _ => true
  | _ :: _, [] => false
  | a :: as, b :: bs => a == b && prefixOfCL as bs

def containsCL (needle : List Char) : List Char → Bool
  | [] => needle.isEmpty
  | c :: rest => prefixOfCL needle (c :: rest) || containsCL needle rest

/-- Python `needle in hay` on strings. -/
def containsSub (hay needle : String) : Bool :=
  containsCL needle.data hay.data

/-- Worker for `pySplit`: `cur` holds the characters of the word in
progress, in reverse order. -/
def pySplitGo : List Char → List Char → List String
  | cur, [] => if cur.isEmpty then [] else [String.mk cur.reverse]
  | cur, c :: rest =>
    if c.isWhitespace then
      if cur.isEmpty then pySplitGo [] rest
      else String.mk cur.reverse :: pySplitGo [] rest
    else pySplitGo (c :: cur) rest

/-- Python `s.split()`: split on whitespace runs, dropping empty pieces. -/
def pySplit (s : String) : List String := pySplitGo [] s.data

/-- Python `s.strip()` on a character list. -/
def pyStrip (l : List Char) : List Char :=
  ((l.dropWhile Char.isWhitespace).reverse.dropWhile Char.isWhitespace).reverse

/-- Worker for `collapseWs`; the flag records whether the previous kept
character position was inside a whitespace run. -/
def collapseWsGo : Bool → List Char → List Char
  | _, [] => []
  | prevWs, c :: rest =>
    if c.isWhitespace then
      if prevWs then collapseWsGo true rest else ' ' :: collapseWsGo true rest
    else
      c :: collapseWsGo false rest

/-- Python `re.sub(r'\s+', ' ', l)`: each maximal whitespace run becomes one space. -/
def collapseWs (l : List Char) : List Char := collapseWsGo false l

/-- Python regex `\w` (ASCII scope): letters, digits, underscore. -/
def isWordChar (c : Char) : Bool := c.isAlphanum || c == '_'

def boundaryOk : Option Char → Bool
  | none => true
  | some c => !(isWordChar c)

/-- Worker for `removeWord`, scanning left to right with one fuel unit per
consumed character (the fuel never runs out when initialised with the input
length).  `prev` is the character preceding the current position in the
original string, used for the `\b` boundary test. -/
def removeWordGo (w : List Char) : List Char → Option Char → Nat → List Char
  | [], _, _ => []
  | s, _, 0 => s
  | c :: rest, prev, fuel + 1 =>
    if boundaryOk prev && !w.isEmpty && prefixOfCL w (c :: rest) &&
        boundaryOk ((c :: rest).drop w.length).head? then
      removeWordGo w ((c :: rest).drop w.length) w.getLast? fuel
    else
      c :: removeWordGo w rest (some c) fuel

/-- Python `re.sub(rf'\b{w}\b', '', s)` for a plain word `w`: remove each
whole-word occurrence of `w` (left to right, non-overlapping). -/
def removeWord (w s : List Char) : List Char := removeWordGo w s none s.length

/-! ### Text normalizer — `JobCrawler.clean_company_name` (lines 133–146) -/

def suffixes : List String :=
  ["ltd", "limited", "plc", "inc", "corp", "corporation", "group", "holdings",
   "uk", "technology", "tech", "digital", "systems"]

/-- Keep characters matched by `[\w\s-]`, i.e. drop those matched by
`[^\w\s-]` in `re.sub(r'[^\w\s-]', '', clean)`. -/
def keepChar (c : Char) : Bool := isWordChar c || c.isWhitespace || c == '-'

/-- The first two steps of `clean_company_name`: lowercase, delete each
suffix as a whole word (in the listed order), drop characters outside
`[\w\s-]`. -/
def cleanStem (company_name : String) : List Char :=
  List.filter keepChar
    (suffixes.foldl (fun acc suf => removeWord suf.data acc) (strToLower company_name).data)

/-- The character list of the normalizer output: the stem, `strip()`-ped,
with whitespace runs collapsed. -/
def cleanChars (company_name : String) : List Char :=
  collapseWs (pyStrip (cleanStem company_name))

/-- `JobCrawler.clean_company_name`: lowercase, delete each suffix as a whole
word, drop characters outside `[\w\s-]`, `strip()`, then collapse whitespace
runs to single spaces. -/
def clean_company_name (company_name : String) : String :=
  String.mk (cleanChars company_name)

/-! ### Fetch results and parsed pages

HTTP and HTML parsing are external capabilities (spec section 1); a GET is
modelled by a `Fetch` value: `failure` for a raised exception, otherwise the
status code and the parsed body.  A parsed page carries the visible text
(`get_text()`), the anchors (`find_all('a', href=True)`) and the tags
relevant to the job matcher together with their `.string` value (`none` when
the tag has no single-string child). -/

inductive Fetch (α : Type) where
  | failure
  | response (status : Nat) (body : α)
deriving DecidableEq

structure Anchor where
  href : String
  text : String
deriving DecidableEq

structure Elem where
  tag : String
  str : Option String
deriving DecidableEq

structure Page where
  text : String
  anchors : List Anchor
  elems : List Elem
deriving DecidableEq

/-- The network as seen by `find_career_pages`: `getPage` is
`session.get` + BeautifulSoup, `headStatus` is `session.head` (`none` for a
raised exception), and `urljoin` is `urllib.parse.urljoin`. -/
structure Net where
  getPage : String → Fetch Page
  headStatus : String → Option Nat
  urljoin : String → String → String

/-! ### Website verifier — `JobCrawler.verify_company_website` (lines 178–197) -/

/-- `JobCrawler.verify_company_website`.  The fetch argument stands for
`session.get(url)`: `failure` is a raised exception (the bare `except`
returns `True`), otherwise the status code and the page's visible text.
The source compares `matches >= len(company_words) / 2` with exact float
division, which is equivalent to `2 * matches ≥ len(company_words)`. -/
def verify_company_website (f : Fetch String) (company_name : String) : Bool :=
  match f with
  | .failure => true
  | .response status page_text =>
    if status ≠ 200 then false
    else
      let text := strToLower page_text
      let company_words := pySplit (strToLower company_name)
      let matchCount :=
        (company_words.filter (fun w => w.length > 2 && containsSub text w)).length
      decide (2 * matchCount ≥ company_words.length)

/-- The whitespace tokens of the lowercased company name
(`company_name.lower().split()`). -/
def nameTokens (company_name : String) : List String :=
  pySplit (strToLower company_name)

/-- How many of the company-name tokens of length `> 2` occur in the
lowercased page text. -/
def matchedTokenCount (page_text company_name : String) : Nat :=
  ((nameTokens company_name).filter
    (fun w => w.length > 2 && containsSub (strToLower page_text) w)).length

/-! ### Career page locator — `JobCrawler.find_career_pages` (lines 323–363) -/

def career_indicators : List String :=
  ["careers", "career", "jobs", "job", "work-with-us", "join-us",
   "opportunities", "employment", "hiring", "vacancies", "positions"]

def common_paths : List String := ["/careers", "/career", "/jobs", "/job-opportunities"]

/-- Append `u` unless already present (`if full_url not in career_urls`). -/
def dedupAppend (acc : List String) (u : String) : List String :=
  if u ∈ acc then acc else acc ++ [u]

/-- Does the anchor's href or visible text contain a career indicator
(lines 337–347)? -/
def anchorMatches (link : Anchor) : Bool :=
  career_indicators.any (fun ind =>
    containsSub (strToLower link.href) ind || containsSub (strToLower link.text) ind)

/-- Body of the anchor loop (lines 337–347). -/
def anchorStep (net : Net) (base_url : String) (acc : List String) (link : Anchor) : List String :=
  if anchorMatches link then dedupAppend acc (net.urljoin base_url link.href) else acc

/-- First pass of `find_career_pages`: collect the joined URLs of
indicator-matching anchors, first occurrence only. -/
def anchorPass (net : Net) (base_url : String) (page : Page) : List String :=
  page.anchors.foldl (anchorStep net base_url) []

/-- Body of the well-known-path probe loop (lines 350–358); a HEAD exception
(`headStatus = none`) skips the path. -/
def probeStep (net : Net) (base_url : String) (acc : List String) (path : String) : List String :=
  let career_url := net.urljoin base_url path
  if net.headStatus career_url = some 200 ∧ career_url ∉ acc then acc ++ [career_url]
  else acc

/-- Second pass of `find_career_pages` (lines 349–358): probe the well-known
paths with a HEAD request and append fresh 200-responders. -/
def probePass (net : Net) (base_url : String) (init : List String) : List String :=
  common_paths.foldl (probeStep net base_url) init

/-- `JobCrawler.find_career_pages`: a homepage fetch exception or non-200
yields the (empty) list collected so far; otherwise both passes run and the
result is truncated to 3 (`career_urls[:3]`). -/
def find_career_pages (net : Net) (base_url : String) : List String :=
  match net.getPage base_url with
  | .failure => []
  | .response status page =>
    if status ≠ 200 then []
    else (probePass net base_url (anchorPass net base_url page)).take 3

/-! ### Job matcher — `JobCrawler.check_job_openings` (lines 365–390) -/

def job_keywords : List String :=
  ["devops engineer", "senior devops engineer", "cloud engineer",
   "senior cloud engineer", "infrastructure engineer", "senior infrastructure engineer"]

def block_tags : List String := ["div", "li", "h3", "h4", "p"]

/-- One element of `soup.find_all(['div','li','h3','h4','p'],
string=re.compile(keyword, re.IGNORECASE))`: the tag name must be in the
list and the tag's `.string` must contain the keyword case-insensitively
(BeautifulSoup applies `pattern.search` to the tag's string). -/
def elemMatchesKeyword (el : Elem) (kw : String) : Bool :=
  block_tags.contains el.tag &&
    match el.str with
    | some t => containsSub (strToLower t) kw
    | none => false

/-- `JobCrawler.check_job_openings`: on a fetch exception or non-200 return
`[]`; otherwise keep each keyword that occurs in the lowercased page text
and has at least one matching block-level element. -/
def check_job_openings (f : Fetch Page) : List String :=
  match f with
  | .failure => []
  | .response status page =>
    if status ≠ 200 then []
    else
      let page_text := strToLower page.text
      job_keywords.filter (fun kw =>
        containsSub page_text kw && page.elems.any (fun el => elemMatchesKeyword el kw))

/-! ### Progress ledger — `processed_companies` / `failed_companies`

`failed_companies` is a JSON dict mapping a company name to
`{'count': n, 'reason': r}` with an optional `'last_error'`; it is modelled
as a function into `Option FailRec`.  `processed_companies` is a JSON list
of names. -/

inductive Reason where
  | no_website
  | no_career_pages
  | no_jobs
  | error
deriving DecidableEq

structure FailRec where
  count : Nat
  reason : Reason
  last_error : Option String
deriving DecidableEq

structure CrawlerState where
  processed : List String
  failed : String → Option FailRec

/-- `JobCrawler.should_retry_company` (lines 103–110): retry while the
stored count (entries always carry one) is below 3. -/
def should_retry_company (s : CrawlerState) (company_name : String) : Bool :=
  match s.failed company_name with
  | none => true
  | some rc => rc.count < 3

/-- The combined eligibility gate at the top of `process_company`
(lines 396–404): not already processed, and retryable. -/
def gateAttempt (s : CrawlerState) (company_name : String) : Bool :=
  !(decide (company_name ∈ s.processed)) && should_retry_company s company_name

/-- The failure bookkeeping shared by all failing branches of
`process_company`: create the entry with count 0 and the branch's reason if
absent, then increment the count.  An existing entry keeps its original
reason and last_error. -/
def recordFailure (s : CrawlerState) (company_name : String) (r : Reason) : CrawlerState :=
  let rc0 : FailRec :=
    match s.failed company_name with
    | none => { count := 0, reason := r, last_error := none }
    | some rc => rc
  let rc1 := { rc0 with count := rc0.count + 1 }
  { s with failed := fun n => if n = company_name then some rc1 else s.failed n }

/-- `self.failed_companies[company_name]['last_error'] = str(e)` (line 480). -/
def setLastError (s : CrawlerState) (company_name msg : String) : CrawlerState :=
  { s with
    failed := fun n =>
      if n = company_name then (s.failed n).map (fun rc => { rc with last_error := some msg })
      else s.failed n }

/-- The `except` branch of `process_company` (lines 474–481). -/
def recordError (s : CrawlerState) (company_name msg : String) : CrawlerState :=
  setLastError (recordFailure s company_name .error) company_name msg

/-! ### Per-company pipeline and orchestrator —
`JobCrawler.process_company` (lines 392–481) and `JobCrawler.run`
(lines 483–520) -/

/-- The externally-determined behaviour of one processing attempt:
`get_company_website` (None when no strategy yields a verified site),
`find_career_pages`, `check_job_openings`, and `raises`, which is `some msg`
when the attempt raises an exception caught by the `except` branch. -/
structure Pipeline where
  raises : String → Option String
  get_company_website : String → Option String
  find_career_pages : String → List String
  check_job_openings : String → List String

/-- The classification of one attempt, mirroring the branch structure of
`process_company`'s `try` block. -/
inductive Outcome where
  | noWebsite
  | noCareerPages
  | noJobs
  | error (msg : String)
  | success (website : String) (career_pages found_jobs : List String)
deriving DecidableEq

/-- Which branch of `process_company`'s `try` block runs for `company_name`:
exception, no website, no career pages, no jobs (lines 429–434 concatenate
the per-page keyword lists), or success with `found_jobs = list(set(...))`
(modelled by `eraseDups`). -/
def attemptOutcome (p : Pipeline) (company_name : String) : Outcome :=
  match p.raises company_name with
  | some msg => .error msg
  | none =>
    match p.get_company_website company_name with
    | none => .noWebsite
    | some website =>
      let career_pages := p.find_career_pages website
      if career_pages.isEmpty then .noCareerPages
      else
        let all_found_jobs := career_pages.foldl (fun acc url => acc ++ p.check_job_openings url) []
        if all_found_jobs.isEmpty then .noJobs
        else .success website career_pages all_found_jobs.eraseDups

/-- The success dict built at lines 437–443 (timestamp omitted). -/
structure RunResult where
  company : String
  website : String
  career_pages : List String
  found_jobs : List String
deriving DecidableEq

/-- Result of one `process_company` call: the updated ledger, the returned
dict (None on skip or failure), and whether the attempt ran at all (false
exactly for the two skip branches at lines 396–404). -/
structure StepOut where
  state : CrawlerState
  result : Option RunResult
  attempted : Bool

/-- `JobCrawler.process_company`: skip if already processed or retries are
exhausted; otherwise run the pipeline and update the ledger according to
the branch taken. -/
def process_company (p : Pipeline) (s : CrawlerState) (company_name : String) : StepOut :=
  if company_name ∈ s.processed then ⟨s, none, false⟩
  else if should_retry_company s company_name then
    match attemptOutcome p company_name with
    | .noWebsite => ⟨recordFailure s company_name .no_website, none, true⟩
    | .noCareerPages => ⟨recordFailure s company_name .no_career_pages, none, true⟩
    | .noJobs => ⟨recordFailure s company_name .no_jobs, none, true⟩
    | .error msg => ⟨recordError s company_name msg, none, true⟩
    | .success website career_pages found_jobs =>
      ⟨{ s with processed := s.processed ++ [company_name] },
       some ⟨company_name, website, career_pages, found_jobs⟩, true⟩
  else ⟨s, none, false⟩

/-- Accumulator of `run`'s main loop: ledger, collected results, and the
names that were actually attempted (not skipped). -/
structure RunOut where
  state : CrawlerState
  results : List RunResult
  attempted : List String

/-- One iteration of `run`'s loop over `companies_to_process`. -/
def runStep (p : Pipeline) (acc : RunOut) (c : String) : RunOut :=
  let out := process_company p acc.state c
  { state := out.state
    results := match out.result with | some r => acc.results ++ [r] | none => acc.results
    attempted := if out.attempted then acc.attempted ++ [c] else acc.attempted }

/-- `unprocessed_companies = [c for c in companies if c not in self.processed_companies]`
(line 496). -/
def eligible_companies (s : CrawlerState) (companies : List String) : List String :=
  companies.filter (fun c => decide (c ∉ s.processed))

/-- Lines 498–501: when every input company is already processed, clear the
processed list and take the whole input list; otherwise keep the filtered
list. -/
def batch_start (s : CrawlerState) (companies : List String) : CrawlerState × List String :=
  if (eligible_companies s companies).isEmpty then ({ s with processed := [] }, companies)
  else (s, eligible_companies s companies)

/-- `JobCrawler.run` for a fixed input list: reset-or-filter, truncate to
`max_companies`, then process sequentially (persistence, delays and
notifications carry no ledger effect and are not modelled). -/
def run (p : Pipeline) (s0 : CrawlerState) (companies : List String)
    (max_companies : Nat) : RunOut :=
  ((batch_start s0 companies).2.take max_companies).foldl (runStep p)
    ⟨(batch_start s0 companies).1, [], []⟩

/-- The stored count before a failing attempt (0 when no entry exists yet). -/
def prevCount (s : CrawlerState) (name : String) : Nat :=
  match s.failed name with
  | none => 0
  | some rc => rc.count

/-- The reason a failing attempt leaves in the ledger: the existing entry's
reason if there is one, otherwise the current branch's reason `r`. -/
def prevReasonOr (s : CrawlerState) (name : String) (r : Reason) : Reason :=
  match s.failed name with
  | none => r
  | some rc => rc.reason

/-- The stored last_error before an attempt (none when no entry exists). -/
def prevLastError (s : CrawlerState) (name : String) : Option String :=
  match s.failed name with
  | none => none
  | some rc => rc.last_error

/-- The error message of an attempt, present exactly for the `except` branch. -/
def errMsgOf : Outcome → Option String
  | .error msg => some msg
  | _ => none

/-- The `reason` string a failing outcome writes; `none` for a success. -/
def failReasonOf : Outcome → Option Reason
  | .noWebsite => some .no_website
  | .noCareerPages => some .no_career_pages
  | .noJobs => some .no_jobs
  | .error _ => some .error
  | .success _ _ _ => none

/-! ### Concrete scenarios used by individual claims -/

/-- A pipeline whose attempt finds no website at all. -/
def c1_p1 : Pipeline :=
  { raises := fun _ => none
    get_company_website := fun _ => none
    find_career_pages := fun _ => []
    check_job_openings := fun _ => [] }

/-- A pipeline that finds a website but no career pages. -/
def c1_p2 : Pipeline :=
  { raises := fun _ => none
    get_company_website := fun _ => some "https://a.example"
    find_career_pages := fun _ => []
    check_job_openings := fun _ => [] }

/-- The empty ledger. -/
def c1_s0 : CrawlerState := { processed := [], failed := fun _ => none }

/-- A ledger state in which failure-bookkeeping for "A" already exists. -/
def c1_s1 : CrawlerState :=
  { processed := []
    failed := fun n => if n = "A" then some ⟨1, Reason.no_jobs, none⟩ else none }

/-- A state with "B" already processed. -/
def c2_s : CrawlerState := { processed := ["B"], failed := fun _ => none }

/-- A pipeline on which every attempt would succeed. -/
def c3_p : Pipeline :=
  { raises := fun _ => none
    get_company_website := fun _ => some "https://b.example"
    find_career_pages := fun _ => ["https://b.example/careers"]
    check_job_openings := fun _ => ["devops engineer"] }

/-- Both input companies processed, and "A" additionally capped at 3 failures:
the state right before a reset cycle. -/
def c3_s : CrawlerState :=
  { processed := ["A", "B"]
    failed := fun n => if n = "A" then some ⟨3, Reason.no_jobs, none⟩ else none }

def c4_p : Pipeline :=
  { raises := fun _ => none
    get_company_website := fun _ => none
    find_career_pages := fun _ => []
    check_job_openings := fun _ => [] }

/-- Both companies of a 2-company input already succeeded, none capped. -/
def c4_s : CrawlerState := { processed := ["A", "B"], failed := fun _ => none }

def c5_p : Pipeline :=
  { raises := fun _ => none
    get_company_website := fun _ => some "https://x.example"
    find_career_pages := fun _ => ["https://x.example/jobs"]
    check_job_openings := fun _ => ["cloud engineer"] }

/-- A duplicate-free store with a capped entry for "F". -/
def c5_s : CrawlerState :=
  { processed := ["X"]
    failed := fun n => if n = "F" then some ⟨3, Reason.error, some "boom"⟩ else none }

/-- The Acme homepage of the end-to-end scenario: one careers anchor. -/
def acmeHomepage : Page :=
  { text := "Acme Corp builds widgets"
    anchors := [{ href := "/careers", text := "Careers" }]
    elems := [] }

/-- The Acme careers page: its only keyword occurrence is the single
`<h3>Senior DevOps Engineer</h3>` heading. -/
def acmeCareersPage : Page :=
  { text := "Open roles: Senior DevOps Engineer"
    anchors := []
    elems := [{ tag := "h3", str := some "Senior DevOps Engineer" }] }

/-- The network of the end-to-end scenario: acme.com serves the homepage,
acme.com/careers serves the careers page and answers HEAD probes with 200,
everything else fails. -/
def acmeNet : Net :=
  { getPage := fun url =>
      if url = "https://acme.com" then .response 200 acmeHomepage
      else if url = "https://acme.com/careers" then .response 200 acmeCareersPage
      else .failure
    headStatus := fun url => if url = "https://acme.com/careers" then some 200 else none
    urljoin := fun base path => base ++ path }

/-- The end-to-end pipeline: the direct-domain guess resolves "Acme Corp" to
acme.com (the scenario's premise: the probe returns 200 and the page
verifies), and career-page discovery and job matching run the embedded
`find_career_pages` / `check_job_openings` over `acmeNet`. -/
def acmePipeline : Pipeline :=
  { raises := fun _ => none
    get_company_website := fun name => if name = "Acme Corp" then some "https://acme.com" else none
    find_career_pages := fun url => find_career_pages acmeNet url
    check_job_openings := fun url => check_job_openings (acmeNet.getPage url) }

/-- A network whose every homepage fetch raises. -/
def c9_net : Net :=
  { getPage := fun _ => Fetch.failure
    headStatus := fun _ => none
    urljoin := fun base path => base ++ path }

/-- A homepage carrying one careers anchor. -/
def c9_page : Page :=
  { text := "home", anchors := [{ href := "/careers", text := "Careers" }], elems := [] }

/-- A network serving `c9_page` on one URL. -/
def c9_net200 : Net :=
  { getPage := fun url => if url = "https://ex.example" then Fetch.response 200 c9_page else Fetch.failure
    headStatus := fun _ => none
    urljoin := fun base path => base ++ path }

def c10_p : Pipeline :=
  { raises := fun _ => none
    get_company_website := fun _ => some "https://acme.example"
    find_career_pages := fun _ => ["https://acme.example/careers"]
    check_job_openings := fun _ => ["devops engineer"] }

/-- "A" has one recorded failure and is about to succeed. -/
def c10_s : CrawlerState :=
  { processed := []
    failed := fun n => if n = "A" then some ⟨1, Reason.no_jobs, none⟩ else none }

/-! ### Helper lemmas about the ledger state machine -/

lemma recordFailure_processed (s : CrawlerState) (c : String) (r : Reason) :
    (recordFailure s c r).processed = s.processed := rfl

lemma recordError_processed (s : CrawlerState) (c msg : String) :
    (recordError s c msg).processed = s.processed := rfl

lemma recordFailure_failed_ne (s : CrawlerState) (c : String) (r : Reason) (n : String)
    (h : n ≠ c) : (recordFailure s c r).failed n = s.failed n := by
  simp [recordFailure, h]

lemma recordError_failed_ne (s : CrawlerState) (c msg n : String) (h : n ≠ c) :
    (recordError s c msg).failed n = s.failed n := by
  simp [recordError, setLastError, recordFailure, h]

lemma should_retry_congr {s1 s2 : CrawlerState} (c : String)
    (h : s1.failed c = s2.failed c) :
    should_retry_company s1 c = should_retry_company s2 c := by
  simp [should_retry_company, h]

lemma process_skip_mem (p : Pipeline) (s : CrawlerState) (c : String)
    (h : c ∈ s.processed) : process_company p s c = ⟨s, none, false⟩ := by
  simp [process_company, h]

lemma process_skip_noretry (p : Pipeline) (s : CrawlerState) (c : String)
    (h : should_retry_company s c = false) :
    process_company p s c = ⟨s, none, false⟩ := by
  unfold process_company
  by_cases hm : c ∈ s.processed
  · simp [hm]
  · simp [hm, h]

lemma process_skip_capped (p : Pipeline) (s : CrawlerState) (c : String) (rc : FailRec)
    (h1 : s.failed c = some rc) (h2 : 3 ≤ rc.count) :
    process_company p s c = ⟨s, none, false⟩ := by
  apply process_skip_noretry
  simp [should_retry_company, h1]
  omega

lemma process_failed_ne (p : Pipeline) (s : CrawlerState) (c n : String) (h : n ≠ c) :
    (process_company p s c).state.failed n = s.failed n := by
  unfold process_company
  by_cases hm : c ∈ s.processed
  · simp [hm]
  · by_cases hr : should_retry_company s c = true
    · simp only [hm, hr, if_false, if_true, ite_false, ite_true]
      cases attemptOutcome p c <;>
        simp [recordFailure_failed_ne _ _ _ _ h, recordError_failed_ne _ _ _ _ h]
    · simp [hm, hr]

lemma process_processed_cases (p : Pipeline) (s : CrawlerState) (c : String) :
    (process_company p s c).state.processed = s.processed ∨
      (process_company p s c).state.processed = s.processed ++ [c] := by
  unfold process_company
  by_cases hm : c ∈ s.processed
  · simp [hm]
  · by_cases hr : should_retry_company s c = true
    · simp only [hm, hr, if_false, if_true, ite_false, ite_true]
      cases attemptOutcome p c <;> simp [recordFailure, recordError, setLastError]
    · simp [hm, hr]

lemma process_mem_processed_ne (p : Pipeline) (s : CrawlerState) (c n : String)
    (h : n ≠ c) :
    (n ∈ (process_company p s c).state.processed ↔ n ∈ s.processed) := by
  rcases process_processed_cases p s c with hc | hc
  · rw [hc]
  · rw [hc]; simp [h]

lemma process_nodup (p : Pipeline) (s : CrawlerState) (c : String)
    (h : s.processed.Nodup) : (process_company p s c).state.processed.Nodup := by
  unfold process_company
  by_cases hm : c ∈ s.processed
  · simp [hm, h]
  · by_cases hr : should_retry_company s c = true
    · simp only [hm, hr, if_false, if_true, ite_false, ite_true]
      cases attemptOutcome p c <;>
        simp [recordFailure, recordError, setLastError, h, List.nodup_append, hm]
    · simp [hm, hr, h]

lemma process_attempted_true (p : Pipeline) (s : CrawlerState) (c : String)
    (h1 : c ∉ s.processed) (h2 : should_retry_company s c = true) :
    (process_company p s c).attempted = true := by
  unfold process_company
  simp only [h1, h2, if_false, if_true, ite_false, ite_true]
  cases attemptOutcome p c <;> rfl

/-! ### Helper lemmas about `run` -/

lemma batch_start_failed (s : CrawlerState) (companies : List String) :
    (batch_start s companies).1.failed = s.failed := by
  unfold batch_start
  split <;> rfl

lemma batch_start_nodup (s : CrawlerState) (companies : List String)
    (h : s.processed.Nodup) : (batch_start s companies).1.processed.Nodup := by
  unfold batch_start
  split
  · exact List.nodup_nil
  · exact h

lemma runStep_state (p : Pipeline) (acc : RunOut) (c : String) :
    (runStep p acc c).state = (process_company p acc.state c).state := rfl

lemma runStep_attempted (p : Pipeline) (acc : RunOut) (c : String) :
    (runStep p acc c).attempted = acc.attempted ∨
      (runStep p acc c).attempted = acc.attempted ++ [c] := by
  unfold runStep
  by_cases ha : (process_company p acc.state c).attempted = true
  · right; simp [ha]
  · left; simp [ha]

lemma runStep_capped (p : Pipeline) (acc : RunOut) (c name : String) (rc : FailRec)
    (h2 : 3 ≤ rc.count) (h1 : acc.state.failed name = some rc)
    (h3 : name ∉ acc.attempted) :
    (runStep p acc c).state.failed name = some rc ∧ name ∉ (runStep p acc c).attempted := by
  by_cases hc : name = c
  · subst hc
    have hskip := process_skip_capped p acc.state name rc h1 h2
    unfold runStep
    rw [hskip]
    exact ⟨h1, h3⟩
  · constructor
    · show (process_company p acc.state c).state.failed name = some rc
      rw [process_failed_ne p acc.state c name hc]
      exact h1
    · rcases runStep_attempted p acc c with ha | ha <;> rw [ha]
      · exact h3
      · intro hmem
        rcases List.mem_append.mp hmem with hmem | hmem
        · exact h3 hmem
        · exact hc (List.mem_singleton.mp hmem)

lemma foldl_capped (p : Pipeline) (l : List String) (acc : RunOut) (name : String)
    (rc : FailRec) (h2 : 3 ≤ rc.count) (h1 : acc.state.failed name = some rc)
    (h3 : name ∉ acc.attempted) :
    (l.foldl (runStep p) acc).state.failed name = some rc ∧
      name ∉ (l.foldl (runStep p) acc).attempted := by
  induction l generalizing acc with
  | nil => exact ⟨h1, h3⟩
  | cons c rest ih =>
    have hstep := runStep_capped p acc c name rc h2 h1 h3
    exact ih (runStep p acc c) hstep.1 hstep.2

/-- A capped failure entry survives a whole batch run untouched, and its
company is never attempted, reset cycle or not. -/
lemma run_capped (p : Pipeline) (s : CrawlerState) (companies : List String)
    (max_companies : Nat) (name : String) (rc : FailRec)
    (h1 : s.failed name = some rc) (h2 : 3 ≤ rc.count) :
    (run p s companies max_companies).state.failed name = some rc ∧
      name ∉ (run p s companies max_companies).attempted := by
  unfold run
  apply foldl_capped p _ _ name rc h2
  · show (batch_start s companies).1.failed name = some rc
    rw [batch_start_failed]
    exact h1
  · exact List.not_mem_nil name

lemma foldl_nodup (p : Pipeline) (l : List String) (acc : RunOut)
    (h : acc.state.processed.Nodup) :
    (l.foldl (runStep p) acc).state.processed.Nodup := by
  induction l generalizing acc with
  | nil => exact h
  | cons c rest ih => exact ih (runStep p acc c) (process_nodup p acc.state c h)

/-- A batch run keeps the processed list duplicate-free. -/
lemma run_nodup (p : Pipeline) (s : CrawlerState) (companies : List String)
    (max_companies : Nat) (h : s.processed.Nodup) :
    (run p s companies max_companies).state.processed.Nodup := by
  unfold run
  exact foldl_nodup p _ _ (batch_start_nodup s companies h)

/-! ### Helper lemmas about the career-page locator -/

lemma probeStep_append (net : Net) (base_url : String) (acc : List String) (q : String) :
    ∃ e, probeStep net base_url acc q = acc ++ e := by
  simp only [probeStep]
  split
  · exact ⟨[net.urljoin base_url q], rfl⟩
  · exact ⟨[], (List.append_nil acc).symm⟩

lemma foldl_probeStep_append (net : Net) (base_url : String) (paths init : List String) :
    ∃ added, paths.foldl (probeStep net base_url) init = init ++ added := by
  induction paths generalizing init with
  | nil => exact ⟨[], (List.append_nil init).symm⟩
  | cons q rest ih =>
    rw [List.foldl_cons]
    rcases probeStep_append net base_url init q with ⟨e, he⟩
    rcases ih (probeStep net base_url init q) with ⟨d, hd⟩
    exact ⟨e ++ d, by rw [hd, he, List.append_assoc]⟩

lemma probePass_append (net : Net) (base_url : String) (init : List String) :
    ∃ added, probePass net base_url init = init ++ added :=
  foldl_probeStep_append net base_url common_paths init

lemma dedupAppend_nodup (acc : List String) (u : String) (h : acc.Nodup) :
    (dedupAppend acc u).Nodup := by
  unfold dedupAppend
  split
  · exact h
  · rename_i hu
    rw [List.nodup_append]
    refine ⟨h, List.nodup_singleton u, fun x hx hx' => ?_⟩
    rcases List.mem_singleton.mp hx' with rfl
    exact hu hx

lemma anchorStep_nodup (net : Net) (base_url : String) (acc : List String) (link : Anchor)
    (h : acc.Nodup) : (anchorStep net base_url acc link).Nodup := by
  unfold anchorStep
  split
  · exact dedupAppend_nodup _ _ h
  · exact h

lemma anchorPass_nodup (net : Net) (base_url : String) (page : Page) :
    (anchorPass net base_url page).Nodup := by
  have key : ∀ (ls : List Anchor) (acc : List String), acc.Nodup →
      (ls.foldl (anchorStep net base_url) acc).Nodup := by
    intro ls
    induction ls with
    | nil => exact fun acc h => h
    | cons l rest ih =>
      intro acc h
      rw [List.foldl_cons]
      exact ih _ (anchorStep_nodup net base_url acc l h)
  exact key page.anchors [] List.nodup_nil

lemma probeStep_nodup (net : Net) (base_url : String) (acc : List String) (q : String)
    (h : acc.Nodup) : (probeStep net base_url acc q).Nodup := by
  simp only [probeStep]
  split
  · rename_i hc
    rw [List.nodup_append]
    refine ⟨h, List.nodup_singleton _, fun x hx hx' => ?_⟩
    rcases List.mem_singleton.mp hx' with rfl
    exact hc.2 hx
  · exact h

lemma probePass_nodup (net : Net) (base_url : String) (init : List String)
    (h : init.Nodup) : (probePass net base_url init).Nodup := by
  have key : ∀ (ps : List String) (acc : List String), acc.Nodup →
      (ps.foldl (probeStep net base_url) acc).Nodup := by
    intro ps
    induction ps with
    | nil => exact fun acc h => h
    | cons q rest ih =>
      intro acc hacc
      rw [List.foldl_cons]
      exact ih _ (probeStep_nodup net base_url acc q hacc)
  exact key common_paths init h

/-! ### Claim theorems -/

/-- C9: for every network and website URL, `find_career_pages` returns at
most 3 pairwise-distinct URLs; every URL of the anchor-indicator pass
precedes every URL the well-known-path probe pass added; and a homepage
fetch failure yields `[]` rather than an error. -/
theorem C9_career_locator (net : Net) (base_url : String) :
    (find_career_pages net base_url).length ≤ 3 ∧
      (find_career_pages net base_url).Nodup ∧
      (net.getPage base_url = .failure → find_career_pages net base_url = []) ∧
      (∀ page, net.getPage base_url = .response 200 page →
        ∃ probed, probePass net base_url (anchorPass net base_url page) =
            anchorPass net base_url page ++ probed ∧
          find_career_pages net base_url =
            (anchorPass net base_url page ++ probed).take 3) := by
  cases hp : net.getPage base_url with
  | failure =>
    have hfe : find_career_pages net base_url = [] := by
      unfold find_career_pages
      rw [hp]
    refine ⟨by rw [hfe]; simp, by rw [hfe]; exact List.nodup_nil, fun _ => hfe,
      fun page hpage => ?_⟩
    exact absurd hpage (by simp)
  | response status page =>
    by_cases hs : status = 200
    · subst hs
      have hfe : find_career_pages net base_url =
          (probePass net base_url (anchorPass net base_url page)).take 3 := by
        unfold find_career_pages
        rw [hp]
        exact if_neg (fun hc => hc rfl)
      refine ⟨?_, ?_, fun hfail => ?_, fun page2 hpage2 => ?_⟩
      · rw [hfe, List.length_take]
        exact min_le_left _ _
      · rw [hfe]
        exact (List.take_sublist 3 _).nodup
          (probePass_nodup net base_url _ (anchorPass_nodup net base_url page))
      · exact absurd hfail (by simp)
      · have hpg : page = page2 := by injection hpage2
        subst hpg
        rcases probePass_append net base_url (anchorPass net base_url page) with ⟨d, hd⟩
        exact ⟨d, hd, by rw [hfe, ← hd]⟩
    · have hfe : find_career_pages net base_url = [] := by
        unfold find_career_pages
        rw [hp]
        exact if_pos hs
      refine ⟨by rw [hfe]; simp, by rw [hfe]; exact List.nodup_nil, fun _ => hfe,
        fun page2 hpage2 => ?_⟩
      have hst : status = 200 := by injection hpage2 with h1 h2
      exact absurd hst hs

/-- Witness for C9: a failing homepage fetch yields the empty list, and on a
concrete 200 homepage the result decomposes into anchor-pass URLs followed
by probe additions. -/
theorem C9_witness :
    find_career_pages c9_net "https://x.example" = [] ∧
      (∃ probed, probePass c9_net200 "https://ex.example"
            (anchorPass c9_net200 "https://ex.example" c9_page) =
          anchorPass c9_net200 "https://ex.example" c9_page ++ probed ∧
        find_career_pages c9_net200 "https://ex.example" =
          (anchorPass c9_net200 "https://ex.example" c9_page ++ probed).take 3) :=
  ⟨(C9_career_locator c9_net "https://x.example").2.2.1 rfl,
   (C9_career_locator c9_net200 "https://ex.example").2.2.2 c9_page rfl⟩

/-- C2: for every ledger state, the gate in front of `process_company`
refuses exactly the companies already recorded as succeeded or failed with
`count ≥ 3`, and a refused company is returned unprocessed with its state
untouched. -/
theorem C2_eligibility_gate (p : Pipeline) (s : CrawlerState) (company_name : String) :
    (gateAttempt s company_name = false ↔
      company_name ∈ s.processed ∨
        ∃ rc, s.failed company_name = some rc ∧ 3 ≤ rc.count) ∧
    (gateAttempt s company_name = false →
      process_company p s company_name = ⟨s, none, false⟩) := by
  have hiff : gateAttempt s company_name = false ↔
      company_name ∈ s.processed ∨
        ∃ rc, s.failed company_name = some rc ∧ 3 ≤ rc.count := by
    unfold gateAttempt should_retry_company
    cases hf : s.failed company_name with
    | none => simp
    | some rc =>
      simp [Nat.not_lt]
      by_cases hm : company_name ∈ s.processed <;> simp [hm]
  refine ⟨hiff, fun h => ?_⟩
  rcases hiff.mp h with hm | ⟨rc, hrc, hcap⟩
  · exact process_skip_mem p s company_name hm
  · exact process_skip_capped p s company_name rc hrc hcap

/-- Witness for C2: with "B" already processed the gate refuses "B" and
`process_company` returns the state unchanged. -/
theorem C2_witness :
    gateAttempt c2_s "B" = false ∧
      process_company c1_p1 c2_s "B" = ⟨c2_s, none, false⟩ :=
  ⟨by decide,
   (C2_eligibility_gate c1_p1 c2_s "B").2 (by decide)⟩

/-- C10: a company that succeeds after earlier failures is appended to the
processed list while the whole failed mapping — in particular its own entry —
is left untouched, so the name ends up in both records at once. -/
theorem C10_success_keeps_failed (p : Pipeline) (s : CrawlerState) (name : String)
    (rc : FailRec) (website : String) (career_pages found_jobs : List String)
    (h1 : s.failed name = some rc)
    (hm : name ∉ s.processed)
    (hr : should_retry_company s name = true)
    (ho : attemptOutcome p name = .success website career_pages found_jobs) :
    (process_company p s name).state.processed = s.processed ++ [name] ∧
      (process_company p s name).state.failed = s.failed ∧
      (process_company p s name).state.failed name = some rc ∧
      name ∈ (process_company p s name).state.processed := by
  unfold process_company
  rw [if_neg hm, if_pos hr, ho]
  exact ⟨rfl, rfl, h1, by simp⟩

/-- Witness for C10: "A" with one recorded failure succeeds; it is appended
to the processed list and its failure entry survives unchanged. -/
theorem C10_witness :
    (process_company c10_p c10_s "A").state.processed = c10_s.processed ++ ["A"] ∧
      (process_company c10_p c10_s "A").state.failed = c10_s.failed ∧
      (process_company c10_p c10_s "A").state.failed "A" = some ⟨1, Reason.no_jobs, none⟩ ∧
      "A" ∈ (process_company c10_p c10_s "A").state.processed :=
  C10_success_keeps_failed c10_p c10_s "A" ⟨1, Reason.no_jobs, none⟩ "https://acme.example"
    ["https://acme.example/careers"] ["devops engineer"]
    (by decide) (by decide) (by decide) (by decide)

/-- C1 (amended): on every failing attempt that passes the gate, the stored
count increments by exactly 1; the reason is set by the first failure and
retained unchanged on later failures; last_error is overwritten on
error-reason failures and otherwise left unchanged. -/
theorem C1_failure_bookkeeping (p : Pipeline) (s : CrawlerState) (name : String) (r : Reason)
    (hm : name ∉ s.processed)
    (hr : should_retry_company s name = true)
    (hfail : failReasonOf (attemptOutcome p name) = some r) :
    ((process_company p s name).state.failed name).map FailRec.count =
        some (prevCount s name + 1) ∧
      ((process_company p s name).state.failed name).map FailRec.reason =
        some (prevReasonOr s name r) ∧
      ((process_company p s name).state.failed name).map FailRec.last_error =
        some (match errMsgOf (attemptOutcome p name) with
              | some m => some m
              | none => prevLastError s name) := by
  unfold process_company
  rw [if_neg hm, if_pos hr]
  cases ho : attemptOutcome p name with
  | noWebsite =>
    rw [ho] at hfail
    simp only [failReasonOf, Option.some.injEq] at hfail
    subst hfail
    cases hf : s.failed name <;>
      simp [recordFailure, errMsgOf, prevCount, prevReasonOr, prevLastError, hf]
  | noCareerPages =>
    rw [ho] at hfail
    simp only [failReasonOf, Option.some.injEq] at hfail
    subst hfail
    cases hf : s.failed name <;>
      simp [recordFailure, errMsgOf, prevCount, prevReasonOr, prevLastError, hf]
  | noJobs =>
    rw [ho] at hfail
    simp only [failReasonOf, Option.some.injEq] at hfail
    subst hfail
    cases hf : s.failed name <;>
      simp [recordFailure, errMsgOf, prevCount, prevReasonOr, prevLastError, hf]
  | error msg =>
    rw [ho] at hfail
    simp only [failReasonOf, Option.some.injEq] at hfail
    subst hfail
    cases hf : s.failed name <;>
      simp [recordError, setLastError, recordFailure, errMsgOf, prevCount,
        prevReasonOr, prevLastError, hf]
  | success website career_pages found_jobs =>
    rw [ho] at hfail
    simp [failReasonOf] at hfail

/-- Counterexample for C1: "A" first fails with reason no_website, then
fails again with reason no_career_pages; the stored reason remains
no_website — the most recent attempt's reason is not written. -/
theorem C1_counterexample :
    (process_company c1_p2 (process_company c1_p1 c1_s0 "A").state "A").state.failed "A" =
        some ⟨2, Reason.no_website, none⟩ ∧
      attemptOutcome c1_p2 "A" = Outcome.noCareerPages ∧
      Reason.no_website ≠ Reason.no_career_pages :=
  ⟨by decide, by decide, by decide⟩

/-- Witness for C1: a failing attempt on a state that already has an entry
for "A". -/
theorem C1_witness :
    ((process_company c1_p1 c1_s1 "A").state.failed "A").map FailRec.count =
        some (prevCount c1_s1 "A" + 1) ∧
      ((process_company c1_p1 c1_s1 "A").state.failed "A").map FailRec.reason =
        some (prevReasonOr c1_s1 "A" Reason.no_website) ∧
      ((process_company c1_p1 c1_s1 "A").state.failed "A").map FailRec.last_error =
        some (match errMsgOf (attemptOutcome c1_p1 "A") with
              | some m => some m
              | none => prevLastError c1_s1 "A") :=
  C1_failure_bookkeeping c1_p1 c1_s1 "A" Reason.no_website (by decide) (by decide) (by decide)

/-- C3 (amended): a company whose stored failure count has reached 3 is
excluded from every subsequent batch run — its ledger entry never changes
and it is never attempted; the full-reset cycle clears only the processed
list and therefore does not restore its eligibility. -/
theorem C3_retry_cap (p : Pipeline) (s : CrawlerState) (companies : List String)
    (max_companies : Nat) (name : String) (rc : FailRec)
    (h1 : s.failed name = some rc) (h2 : 3 ≤ rc.count) :
    name ∉ (run p s companies max_companies).attempted ∧
      (run p s companies max_companies).state.failed name = some rc :=
  ⟨(run_capped p s companies max_companies name rc h1 h2).2,
   (run_capped p s companies max_companies name rc h1 h2).1⟩

/-- Counterexample for C3: both companies are recorded processed, so the
batch triggers the full-reset cycle (the eligibility filter is empty), yet
the capped company "A" is still not attempted and its entry is unchanged —
the reset does not make it eligible again. -/
theorem C3_counterexample :
    (eligible_companies c3_s ["A", "B"]).isEmpty = true ∧
      (run c3_p c3_s ["A", "B"] 10).attempted = ["B"] ∧
      (run c3_p c3_s ["A", "B"] 10).state.failed "A" = some ⟨3, Reason.no_jobs, none⟩ :=
  ⟨by decide, by decide, by decide⟩

/-- Witness for C3 on the concrete reset scenario. -/
theorem C3_witness :
    "A" ∉ (run c3_p c3_s ["A", "B"] 10).attempted ∧
      (run c3_p c3_s ["A", "B"] 10).state.failed "A" = some ⟨3, Reason.no_jobs, none⟩ :=
  C3_retry_cap c3_p c3_s ["A", "B"] 10 "A" ⟨3, Reason.no_jobs, none⟩ (by decide) (by decide)

/-- C5: running the batch twice on the same input list and store leaves the
processed list duplicate-free, and a failure entry already at the cap is
byte-for-byte unchanged (in particular its count does not grow beyond 3). -/
theorem C5_idempotence (p : Pipeline) (s : CrawlerState) (companies : List String)
    (max_companies : Nat) (name : String) (rc : FailRec)
    (hnd : s.processed.Nodup) (h1 : s.failed name = some rc) (h2 : 3 ≤ rc.count) :
    (run p (run p s companies max_companies).state companies max_companies).state.processed.Nodup ∧
      (run p (run p s companies max_companies).state companies
          max_companies).state.failed name = some rc := by
  have hrun1 := run_capped p s companies max_companies name rc h1 h2
  have hnd1 := run_nodup p s companies max_companies hnd
  exact ⟨run_nodup p _ companies max_companies hnd1,
    (run_capped p _ companies max_companies name rc hrun1.1 h2).1⟩

/-- Witness for C5 on a concrete store with a capped entry. -/
theorem C5_witness :
    (run c5_p (run c5_p c5_s ["X", "F"] 10).state ["X", "F"] 10).state.processed.Nodup ∧
      (run c5_p (run c5_p c5_s ["X", "F"] 10).state ["X", "F"] 10).state.failed "F" =
        some ⟨3, Reason.error, some "boom"⟩ :=
  C5_idempotence c5_p c5_s ["X", "F"] 10 "F" ⟨3, Reason.error, some "boom"⟩
    (by decide) (by decide) (by decide)

lemma runStep_attempted_true (p : Pipeline) (acc : RunOut) (c : String)
    (h : (process_company p acc.state c).attempted = true) :
    (runStep p acc c).attempted = acc.attempted ++ [c] := by
  unfold runStep
  simp [h]

/-- C4: when every company of the input list is recorded processed (and none
is capped), the batch clears the processed list and takes the full input
list; for a 2-company input both companies are then actually attempted. -/
theorem C4_reset_rule (p : Pipeline) (s : CrawlerState) (a b : String) (max_companies : Nat)
    (ha : a ∈ s.processed) (hb : b ∈ s.processed) (hab : a ≠ b)
    (hra : should_retry_company s a = true) (hrb : should_retry_company s b = true)
    (hmax : 2 ≤ max_companies) :
    batch_start s [a, b] = ({ s with processed := [] }, [a, b]) ∧
      (run p s [a, b] max_companies).attempted = [a, b] := by
  have he : eligible_companies s [a, b] = [] := by
    simp [eligible_companies, ha, hb]
  have hbs : batch_start s [a, b] = ({ s with processed := [] }, [a, b]) := by
    unfold batch_start
    rw [he]
    rfl
  refine ⟨hbs, ?_⟩
  obtain ⟨m, rfl⟩ : ∃ m, max_companies = m + 2 := ⟨max_companies - 2, by omega⟩
  unfold run
  rw [hbs]
  dsimp only
  have htake : List.take (m + 2) [a, b] = [a, b] := by
    show List.take (m + 1 + 1) [a, b] = [a, b]
    rw [List.take_succ_cons, List.take_succ_cons, List.take_nil]
  rw [htake, List.foldl_cons, List.foldl_cons, List.foldl_nil]
  have ha_att : (process_company p { s with processed := ([] : List String) } a).attempted = true := by
    apply process_attempted_true
    · simp
    · rw [should_retry_congr a
        (rfl : ({ s with processed := ([] : List String) } : CrawlerState).failed a = s.failed a)]
      exact hra
  have hstate1 : (runStep p ⟨{ s with processed := [] }, [], []⟩ a).state =
      (process_company p { s with processed := [] } a).state :=
    runStep_state p _ a
  have hb_mem : b ∉ (runStep p ⟨{ s with processed := [] }, [], []⟩ a).state.processed := by
    rw [hstate1]
    intro hmem
    have hmem2 := (process_mem_processed_ne p _ a b (Ne.symm hab)).mp hmem
    simp at hmem2
  have hb_retry : should_retry_company
      (runStep p ⟨{ s with processed := [] }, [], []⟩ a).state b = true := by
    rw [hstate1]
    rw [should_retry_congr b (process_failed_ne p _ a b (Ne.symm hab))]
    rw [should_retry_congr b
      (rfl : ({ s with processed := ([] : List String) } : CrawlerState).failed b = s.failed b)]
    exact hrb
  have hb_att : (process_company p
      (runStep p ⟨{ s with processed := [] }, [], []⟩ a).state b).attempted = true :=
    process_attempted_true p _ b hb_mem hb_retry
  rw [runStep_attempted_true p _ b hb_att,
    runStep_attempted_true p _ a ha_att]
  rfl

/-- Witness for C4: both companies of a concrete 2-company input are
recorded processed; the next run resets and attempts both. -/
theorem C4_witness :
    batch_start c4_s ["A", "B"] = ({ c4_s with processed := [] }, ["A", "B"]) ∧
      (run c4_p c4_s ["A", "B"] 10).attempted = ["A", "B"] :=
  C4_reset_rule c4_p c4_s "A" "B" 10 (by decide) (by decide) (by decide)
    (by decide) (by decide) (by decide)

/-- Counterexample for C6: in the end-to-end Acme scenario the success
outcome reports both "devops engineer" and "senior devops engineer" — the
shorter keyword also matches as a substring of the single h3 heading — so
the foundJobs set is not exactly the singleton the claim states. -/
theorem C6_counterexample :
    (run acmePipeline { processed := [], failed := fun _ => none }
        ["Acme Corp"] 10).results.map (fun rr => rr.found_jobs) =
      [["devops engineer", "senior devops engineer"]] ∧
    ("devops engineer" : String) ≠ "senior devops engineer" :=
  ⟨by decide, by decide⟩

/-- C6 (amended): the end-to-end Acme scenario yields exactly one succeeded
outcome, for "Acme Corp", with website acme.com, the single discovered
career page, and foundJobs consisting of "devops engineer" and
"senior devops engineer"; the ledger records the company as processed. -/
theorem C6_end_to_end :
    (run acmePipeline { processed := [], failed := fun _ => none }
        ["Acme Corp"] 10).results =
      [{ company := "Acme Corp", website := "https://acme.com",
         career_pages := ["https://acme.com/careers"],
         found_jobs := ["devops engineer", "senior devops engineer"] }] ∧
    (run acmePipeline { processed := [], failed := fun _ => none }
        ["Acme Corp"] 10).state.processed = ["Acme Corp"] :=
  ⟨by decide, by decide⟩

/-- C7: the verifier answers true on any fetch exception, false on every
non-200 response, and on a 200 response answers true exactly when the
number of whitespace tokens of the company name that are longer than 2
characters and occur in the page text is at least half of all tokens. -/
theorem C7_verifier (f : Fetch String) (company_name : String) :
    (f = .failure → verify_company_website f company_name = true) ∧
    (∀ status body, f = .response status body → status ≠ 200 →
      verify_company_website f company_name = false) ∧
    (∀ body, f = .response 200 body →
      (verify_company_website f company_name = true ↔
        2 * matchedTokenCount body company_name ≥ (nameTokens company_name).length)) := by
  refine ⟨fun h => by rw [h]; rfl, fun status body h hs => ?_, fun body h => ?_⟩
  · rw [h]
    unfold verify_company_website
    dsimp only
    rw [if_pos hs]
  · rw [h]
    unfold verify_company_website
    dsimp only
    rw [if_neg (fun hc => hc rfl)]
    rw [decide_eq_true_iff]
    unfold matchedTokenCount nameTokens
    exact Iff.rfl

/-- Witness for C7: a fetch exception, a 404 and a 200 page. -/
theorem C7_witness :
    verify_company_website Fetch.failure "Acme Corp" = true ∧
      verify_company_website (Fetch.response 404 "nothing here") "Acme Corp" = false ∧
      (verify_company_website (Fetch.response 200 "Welcome to Acme Corp") "Acme Corp" = true ↔
        2 * matchedTokenCount "Welcome to Acme Corp" "Acme Corp" ≥
          (nameTokens "Acme Corp").length) :=
  ⟨(C7_verifier Fetch.failure "Acme Corp").1 rfl,
   (C7_verifier (Fetch.response 404 "nothing here") "Acme Corp").2.1 404 "nothing here"
     rfl (by decide),
   (C7_verifier (Fetch.response 200 "Welcome to Acme Corp") "Acme Corp").2.2
     "Welcome to Acme Corp" rfl⟩

/-! ### Helper lemmas about the normalizer -/

lemma bool_eq_false_of_ne_true {b : Bool} (h : ¬(b = true)) : b = false := by
  cases hx : b
  · rfl
  · exact absurd hx h

lemma data_mk (l : List Char) : (String.mk l).data = l := rfl

lemma collapseWsGo_cons_ws_true (a : Char) (rest : List Char) (hw : a.isWhitespace = true) :
    collapseWsGo true (a :: rest) = collapseWsGo true rest := by
  simp only [collapseWsGo]
  rw [if_pos hw, if_pos trivial]

lemma collapseWsGo_cons_ws_false (a : Char) (rest : List Char) (hw : a.isWhitespace = true) :
    collapseWsGo false (a :: rest) = ' ' :: collapseWsGo true rest := by
  simp only [collapseWsGo]
  rw [if_pos hw, if_neg Bool.false_ne_true]

lemma collapseWsGo_cons_nonws (b : Bool) (a : Char) (rest : List Char)
    (hw : a.isWhitespace = false) :
    collapseWsGo b (a :: rest) = a :: collapseWsGo false rest := by
  simp only [collapseWsGo]
  rw [if_neg (by simp [hw])]

lemma collapseWsGo_mem (l : List Char) : ∀ (b : Bool) (c : Char),
    c ∈ collapseWsGo b l → c = ' ' ∨ c ∈ l := by
  induction l with
  | nil =>
    intro b c h
    simp [collapseWsGo] at h
  | cons a rest ih =>
    intro b c h
    by_cases hw : a.isWhitespace = true
    · cases b with
      | true =>
        rw [collapseWsGo_cons_ws_true a rest hw] at h
        rcases ih true c h with h1 | h1
        · exact Or.inl h1
        · exact Or.inr (List.mem_cons_of_mem a h1)
      | false =>
        rw [collapseWsGo_cons_ws_false a rest hw] at h
        rcases List.mem_cons.mp h with h1 | h1
        · exact Or.inl h1
        · rcases ih true c h1 with h2 | h2
          · exact Or.inl h2
          · exact Or.inr (List.mem_cons_of_mem a h2)
    · rw [collapseWsGo_cons_nonws b a rest (bool_eq_false_of_ne_true hw)] at h
      rcases List.mem_cons.mp h with h1 | h1
      · subst h1
        exact Or.inr (List.mem_cons_self c rest)
      · rcases ih false c h1 with h2 | h2
        · exact Or.inl h2
        · exact Or.inr (List.mem_cons_of_mem a h2)

lemma pyStrip_subset (l : List Char) : ∀ c ∈ pyStrip l, c ∈ l := by
  intro c hc
  unfold pyStrip at hc
  rw [List.mem_reverse] at hc
  have h1 := List.Sublist.subset (List.dropWhile_sublist Char.isWhitespace) hc
  rw [List.mem_reverse] at h1
  exact List.Sublist.subset (List.dropWhile_sublist Char.isWhitespace) h1

lemma collapse_head_true (l : List Char) :
    ∀ c, (collapseWsGo true l).head? = some c → c.isWhitespace = false := by
  induction l with
  | nil =>
    intro c h
    simp [collapseWsGo] at h
  | cons a rest ih =>
    intro c h
    by_cases hw : a.isWhitespace = true
    · rw [collapseWsGo_cons_ws_true a rest hw] at h
      exact ih c h
    · have hw2 := bool_eq_false_of_ne_true hw
      rw [collapseWsGo_cons_nonws true a rest hw2, List.head?_cons, Option.some.injEq] at h
      subst h
      exact hw2

lemma collapse_chain (l : List Char) : ∀ b : Bool,
    List.Chain' (fun x y => ¬(x.isWhitespace = true ∧ y.isWhitespace = true))
      (collapseWsGo b l) := by
  induction l with
  | nil =>
    intro b
    simp [collapseWsGo]
  | cons a rest ih =>
    intro b
    by_cases hw : a.isWhitespace = true
    · cases b with
      | true =>
        rw [collapseWsGo_cons_ws_true a rest hw]
        exact ih true
      | false =>
        rw [collapseWsGo_cons_ws_false a rest hw, List.chain'_cons']
        refine ⟨fun y hy => ?_, ih true⟩
        have hyws := collapse_head_true rest y (Option.mem_def.mp hy)
        intro hcon
        rw [hyws] at hcon
        exact Bool.false_ne_true hcon.2
    · have hw2 := bool_eq_false_of_ne_true hw
      rw [collapseWsGo_cons_nonws b a rest hw2, List.chain'_cons']
      refine ⟨fun y hy => ?_, ih false⟩
      intro hcon
      rw [hw2] at hcon
      exact Bool.false_ne_true hcon.1

lemma head_dropWhile (p : Char → Bool) (l : List Char) :
    ∀ c, (l.dropWhile p).head? = some c → p c = false := by
  induction l with
  | nil =>
    intro c h
    simp [List.dropWhile] at h
  | cons a rest ih =>
    intro c h
    by_cases hp : p a = true
    · rw [List.dropWhile_cons, if_pos hp] at h
      exact ih c h
    · rw [List.dropWhile_cons, if_neg hp, List.head?_cons, Option.some.injEq] at h
      subst h
      exact bool_eq_false_of_ne_true hp

lemma getLast_dropWhile (p : Char → Bool) (l : List Char) :
    l.dropWhile p ≠ [] → (l.dropWhile p).getLast? = l.getLast? := by
  induction l with
  | nil =>
    intro h
    exact absurd rfl h
  | cons a rest ih =>
    intro h
    by_cases hp : p a = true
    · rw [List.dropWhile_cons, if_pos hp] at h ⊢
      have hrest : rest ≠ [] := by
        intro hr
        subst hr
        exact h rfl
      obtain ⟨y, ys, rfl⟩ := List.exists_cons_of_ne_nil hrest
      rw [List.getLast?_cons_cons]
      exact ih h
    · rw [List.dropWhile_cons, if_neg hp]

lemma pyStrip_head (l : List Char) :
    ∀ c, (pyStrip l).head? = some c → c.isWhitespace = false := by
  intro c h
  unfold pyStrip at h
  rw [List.head?_reverse] at h
  have hne : List.dropWhile Char.isWhitespace
      ((List.dropWhile Char.isWhitespace l).reverse) ≠ [] := by
    intro hnil
    rw [hnil] at h
    simp at h
  rw [getLast_dropWhile Char.isWhitespace _ hne, List.getLast?_reverse] at h
  exact head_dropWhile Char.isWhitespace _ c h

lemma pyStrip_last (l : List Char) :
    ∀ c, (pyStrip l).getLast? = some c → c.isWhitespace = false := by
  intro c h
  unfold pyStrip at h
  rw [List.getLast?_reverse] at h
  exact head_dropWhile Char.isWhitespace _ c h

lemma collapse_head_keep (l : List Char) (c : Char) (h : l.head? = some c)
    (hws : c.isWhitespace = false) : (collapseWsGo false l).head? = some c := by
  cases l with
  | nil => simp at h
  | cons a rest =>
    rw [List.head?_cons, Option.some.injEq] at h
    subst h
    rw [collapseWsGo_cons_nonws false a rest hws, List.head?_cons]

lemma collapse_getLast_keep (l : List Char) :
    ∀ (b : Bool) (c : Char), l.getLast? = some c → c.isWhitespace = false →
      (collapseWsGo b l).getLast? = some c := by
  induction l with
  | nil =>
    intro b c h _
    simp at h
  | cons a rest ih =>
    intro b c h hws
    cases rest with
    | nil =>
      simp at h
      subst h
      rw [collapseWsGo_cons_nonws b a [] hws]
      rfl
    | cons a2 rest2 =>
      rw [List.getLast?_cons_cons] at h
      by_cases hw : a.isWhitespace = true
      · cases b with
        | true =>
          rw [collapseWsGo_cons_ws_true a (a2 :: rest2) hw]
          exact ih true c h hws
        | false =>
          rw [collapseWsGo_cons_ws_false a (a2 :: rest2) hw]
          have hx := ih true c h hws
          have hne : collapseWsGo true (a2 :: rest2) ≠ [] := by
            intro hnil
            rw [hnil] at hx
            simp at hx
          obtain ⟨y, ys, hyy⟩ := List.exists_cons_of_ne_nil hne
          rw [hyy] at hx ⊢
          rw [List.getLast?_cons_cons]
          exact hx
      · have hw2 := bool_eq_false_of_ne_true hw
        rw [collapseWsGo_cons_nonws b a (a2 :: rest2) hw2]
        have hx := ih false c h hws
        have hne : collapseWsGo false (a2 :: rest2) ≠ [] := by
          intro hnil
          rw [hnil] at hx
          simp at hx
        obtain ⟨y, ys, hyy⟩ := List.exists_cons_of_ne_nil hne
        rw [hyy] at hx ⊢
        rw [List.getLast?_cons_cons]
        exact hx

lemma clean_data (s : String) :
    (clean_company_name s).data = collapseWsGo false (pyStrip (cleanStem s)) := by
  rw [clean_company_name, data_mk, cleanChars, collapseWs]

/-- C8 (amended): every character the normalizer outputs is a letter, digit,
underscore, whitespace or hyphen (the code's `[^\w\s-]` filter keeps the
underscore of regex `\w`); no two adjacent output characters are whitespace
(runs are collapsed); the output neither starts nor ends with whitespace
(trimmed); and the two spec examples evaluate as stated. -/
theorem C8_normalizer (s : String) :
    (∀ c ∈ (clean_company_name s).data,
        c.isAlphanum = true ∨ c = '_' ∨ c.isWhitespace = true ∨ c = '-') ∧
      List.Chain' (fun x y => ¬(x.isWhitespace = true ∧ y.isWhitespace = true))
        (clean_company_name s).data ∧
      (∀ c : Char,
        ((clean_company_name s).data.head? = some c ∨
            (clean_company_name s).data.getLast? = some c) →
          c.isWhitespace = false) ∧
      clean_company_name "Acme Technology Ltd." = "acme" ∧
      clean_company_name "Beta-Gamma Group" = "beta-gamma" := by
  refine ⟨?_, ?_, ?_, by decide, by decide⟩
  · intro c hc
    rw [clean_data] at hc
    rcases collapseWsGo_mem _ false c hc with h1 | h1
    · subst h1
      right; right; left
      decide
    · have h2 := pyStrip_subset _ c h1
      have h3 := (List.mem_filter.mp h2).2
      simp only [keepChar, isWordChar, Bool.or_eq_true, beq_iff_eq] at h3
      rcases h3 with ((h4 | h4) | h4) | h4
      · left; exact h4
      · right; left; exact h4
      · right; right; left; exact h4
      · right; right; right; exact h4
  · rw [clean_data]
    generalize pyStrip (cleanStem s) = l
    exact collapse_chain l false
  · intro c hc
    rw [clean_data] at hc
    cases hps : pyStrip (cleanStem s) with
    | nil =>
      rw [hps] at hc
      rcases hc with hc | hc <;> simp [collapseWsGo] at hc
    | cons d ds =>
      rcases hc with hc | hc
      · have hh : (pyStrip (cleanStem s)).head? = some d := by
          rw [hps]
          rfl
        have hws0 : d.isWhitespace = false := pyStrip_head _ d hh
        have hhead := collapse_head_keep (d :: ds) d rfl hws0
        rw [hps, hhead, Option.some.injEq] at hc
        subst hc
        exact hws0
      · have hsome : ((d :: ds) : List Char).getLast?.isSome = true := by
          rw [List.getLast?_isSome]
          exact List.cons_ne_nil d ds
        obtain ⟨c0, hc0⟩ := Option.isSome_iff_exists.mp hsome
        have hws0 : c0.isWhitespace = false := by
          apply pyStrip_last (cleanStem s) c0
          rw [hps]
          exact hc0
        have hcl := collapse_getLast_keep (d :: ds) false c0 hc0 hws0
        rw [hps, hcl, Option.some.injEq] at hc
        subst hc
        exact hws0

/-- Counterexample for C8: the code's character filter is `[^\w\s-]` and
`\w` keeps the underscore, so `clean_company_name "a_b"` retains the
underscore even though it is outside the claim's set of letters, digits,
whitespace and hyphen. -/
theorem C8_counterexample :
    clean_company_name "a_b" = "a_b" ∧
      '_' ∈ (clean_company_name "a_b").data ∧
      '_'.isAlphanum = false ∧ '_'.isWhitespace = false ∧ '_' ≠ '-' :=
  ⟨by decide, by decide, by decide, by decide, by decide⟩

/-- Witness for C8: the character-set clause instantiated on a concrete
output character, together with one of the spec's normalizer examples. -/
theorem C8_witness :
    ('a'.isAlphanum = true ∨ 'a' = '_' ∨ 'a'.isWhitespace = true ∨ 'a' = '-') ∧
      clean_company_name "Acme Technology Ltd." = "acme" :=
  ⟨(C8_normalizer "Acme Corp").1 'a' (by decide), (C8_normalizer "x").2.2.2.1⟩

end JobCrawler
